import Mathlib

/-!
Verification of the saba browser rendering pipeline against its
natural-language specification.  The Rust sources under `saba_core` are
shallowly embedded: strings are lists of characters, `Rc<RefCell<Node>>`
graphs are arenas of nodes addressed by index, Rust panics (out-of-bounds
indexing, failed `assert!`/`expect`) are an explicit `crash` outcome, and
unbounded `loop`s are driven by an explicit fuel that is large enough for
every input considered.
-/

set_option maxRecDepth 8192

namespace Saba

/-- Execution outcome of embedded Rust code: a normal value, a Rust panic
(out-of-bounds index or failed assertion/expect), or exhaustion of the fuel
bound used to embed `loop`/iterator recursion. -/
inductive Res (α : Type) where
  | ok (a : α)
  | crash
  | fuel
deriving DecidableEq

def Res.bind {α β : Type} : Res α → (α → Res β) → Res β
  | .ok a, f => f a
  | .crash, _ => .crash
  | .fuel, _ => .fuel

def Res.map {α β : Type} (f : α → β) : Res α → Res β
  | .ok a => .ok (f a)
  | .crash => .crash
  | .fuel => .fuel

instance : Monad Res where
  pure := Res.ok
  bind := Res.bind

/-- `renderer/html/attribute.rs`: an HTML attribute, a name/value pair. -/
structure Attribute where
  name : List Char
  value : List Char
deriving DecidableEq

def Attribute.default : Attribute := ⟨[], []⟩

/-- `Attribute::add_name_char`. -/
def Attribute.addNameChar (a : Attribute) (c : Char) : Attribute :=
  { a with name := a.name ++ [c] }

/-- `Attribute::add_value_char`. -/
def Attribute.addValueChar (a : Attribute) (c : Char) : Attribute :=
  { a with value := a.value ++ [c] }

/-- `renderer/html/token.rs` `HtmlToken`. -/
inductive HtmlToken where
  | startTag (tag : List Char) (selfClosing : Bool) (attributes : List Attribute)
  | endTag (tag : List Char)
  | char (c : Char)
  | eof
deriving DecidableEq

/-- `renderer/html/token.rs` `State`: the tokenizer state machine's states. -/
inductive TState where
  | data
  | tagOpen
  | endTagOpen
  | tagName
  | beforeAttributeName
  | attributeName
  | afterAttributeName
  | beforeAttributeValue
  | attributeValueDoubleQuoted
  | attributeValueSingleQuoted
  | attributeValueUnquoted
  | afterAttributeValueQuoted
  | selfClosingStartTag
  | scriptData
  | scriptDataLessThanSign
  | scriptDataEndTagOpen
  | scriptDataEndTagName
  | temporaryBuffer
deriving DecidableEq

/-- `renderer/html/token.rs` `HtmlTokenizer`. -/
structure HtmlTokenizer where
  state : TState
  pos : Nat
  reconsume : Bool
  latestToken : Option HtmlToken
  input : List Char
  buf : List Char
deriving DecidableEq

/-- `HtmlTokenizer::new`. -/
def HtmlTokenizer.new (html : List Char) : HtmlTokenizer :=
  ⟨.data, 0, false, none, html, []⟩

/-- `HtmlTokenizer::consume_next_input`: `self.input[self.pos]` panics when
`pos` is out of range, then the cursor advances. -/
def HtmlTokenizer.consumeNextInput (t : HtmlTokenizer) : Res (Char × HtmlTokenizer) :=
  match t.input[t.pos]? with
  | some c => .ok (c, { t with pos := t.pos + 1 })
  | none => .crash

/-- `HtmlTokenizer::is_eof`: `self.pos > self.input.len()`. -/
def HtmlTokenizer.isEof (t : HtmlTokenizer) : Bool :=
  t.input.length < t.pos

/-- `HtmlTokenizer::reconsume_input`: clears the flag and re-reads
`self.input[self.pos - 1]` (a panic when out of range, as in Rust). -/
def HtmlTokenizer.reconsumeInput (t : HtmlTokenizer) : Res (Char × HtmlTokenizer) :=
  if t.pos = 0 then .crash
  else
    match t.input[t.pos - 1]? with
    | some c => .ok (c, { t with reconsume := false })
    | none => .crash

/-- `HtmlTokenizer::create_start_tag`. -/
def HtmlTokenizer.createStartTag (t : HtmlTokenizer) : HtmlTokenizer :=
  { t with latestToken := some (.startTag [] false []) }

/-- `HtmlTokenizer::create_end_tag`. -/
def HtmlTokenizer.createEndTag (t : HtmlTokenizer) : HtmlTokenizer :=
  { t with latestToken := some (.endTag []) }

/-- `HtmlTokenizer::append_tag_name`: panics unless `latest_token` is a
start or end tag. -/
def HtmlTokenizer.appendTagName (t : HtmlTokenizer) (c : Char) : Res HtmlTokenizer :=
  match t.latestToken with
  | some (.startTag tag sc attrs) =>
      .ok { t with latestToken := some (.startTag (tag ++ [c]) sc attrs) }
  | some (.endTag tag) =>
      .ok { t with latestToken := some (.endTag (tag ++ [c])) }
  | _ => .crash

/-- `HtmlTokenizer::take_latest_token`: asserts the token is present and
takes it, leaving `None`. -/
def HtmlTokenizer.takeLatestToken (t : HtmlTokenizer) : Res (HtmlToken × HtmlTokenizer) :=
  match t.latestToken with
  | some tok => .ok (tok, { t with latestToken := none })
  | none => .crash

/-- `HtmlTokenizer::start_new_attribute`: panics unless `latest_token` is a
start tag. -/
def HtmlTokenizer.startNewAttribute (t : HtmlTokenizer) : Res HtmlTokenizer :=
  match t.latestToken with
  | some (.startTag tag sc attrs) =>
      .ok { t with latestToken := some (.startTag tag sc (attrs ++ [Attribute.default])) }
  | _ => .crash

/-- `HtmlTokenizer::append_attribute`: panics unless `latest_token` is a
start tag with at least one attribute; mutates the last attribute. -/
def HtmlTokenizer.appendAttribute (t : HtmlTokenizer) (c : Char) (isName : Bool) :
    Res HtmlTokenizer :=
  match t.latestToken with
  | some (.startTag tag sc attrs) =>
      match attrs.getLast? with
      | none => .crash
      | some a =>
          let a := if isName then a.addNameChar c else a.addValueChar c
          .ok { t with latestToken := some (.startTag tag sc (attrs.dropLast ++ [a])) }
  | _ => .crash

/-- `HtmlTokenizer::set_self_closing_flag`: panics unless `latest_token` is a
start tag. -/
def HtmlTokenizer.setSelfClosingFlag (t : HtmlTokenizer) : Res HtmlTokenizer :=
  match t.latestToken with
  | some (.startTag tag _ attrs) =>
      .ok { t with latestToken := some (.startTag tag true attrs) }
  | _ => .crash

/-- The `loop` body of `<HtmlTokenizer as Iterator>::next`, one iteration per
unit of fuel.  Each iteration first reads a character (reconsumed or
consumed), then dispatches on the current state exactly as the source's
`match self.state`. -/
def tokLoop : Nat → HtmlTokenizer → Res (HtmlToken × HtmlTokenizer)
  | 0, _ => .fuel
  | n + 1, t0 =>
    let read := if t0.reconsume then t0.reconsumeInput else t0.consumeNextInput
    match read with
    | .crash => .crash
    | .fuel => .fuel
    | .ok (c, t) =>
      match t.state with
      | .data =>
        if c == '<' then tokLoop n { t with state := .tagOpen }
        else if t.isEof then .ok (.eof, t)
        else .ok (.char c, t)
      | .tagOpen =>
        if c == '/' then tokLoop n { t with state := .endTagOpen }
        else if c.isAlpha then
          tokLoop n ({ t with reconsume := true, state := .tagName }).createStartTag
        else if t.isEof then .ok (.eof, t)
        else tokLoop n { t with reconsume := true, state := .data }
      | .endTagOpen =>
        if t.isEof then .ok (.eof, t)
        else if c.isAlpha then
          tokLoop n ({ t with reconsume := true, state := .tagName }).createEndTag
        else tokLoop n t
      | .tagName =>
        if c == ' ' then tokLoop n { t with state := .beforeAttributeName }
        else
          -- `if c == '/'` sets the state and falls through (no `continue`).
          let t := if c == '/' then { t with state := .selfClosingStartTag } else t
          if c == '>' then ({ t with state := .data }).takeLatestToken
          else if c.isUpper then do tokLoop n (← t.appendTagName c.toLower)
          else if t.isEof then .ok (.eof, t)
          else do tokLoop n (← t.appendTagName c)
      | .beforeAttributeName =>
        if c == '/' || c == '>' || t.isEof then
          tokLoop n { t with reconsume := true, state := .afterAttributeName }
        else do
          tokLoop n (← ({ t with reconsume := true, state := .attributeName }).startNewAttribute)
      | .attributeName =>
        if c == ' ' || c == '/' || c == '>' || t.isEof then
          tokLoop n { t with reconsume := true, state := .afterAttributeName }
        else if c == '=' then tokLoop n { t with state := .beforeAttributeValue }
        else if c.isUpper then do tokLoop n (← t.appendAttribute c.toLower true)
        else do tokLoop n (← t.appendAttribute c true)
      | .afterAttributeName =>
        if c == ' ' then tokLoop n t
        else if c == '/' then tokLoop n { t with state := .selfClosingStartTag }
        else if c == '=' then tokLoop n { t with state := .beforeAttributeValue }
        else if c == '>' then ({ t with state := .data }).takeLatestToken
        else if t.isEof then .ok (.eof, t)
        else do
          tokLoop n (← ({ t with reconsume := true, state := .attributeName }).startNewAttribute)
      | .beforeAttributeValue =>
        if c == ' ' then tokLoop n t
        else if c == Char.ofNat 34 then
          tokLoop n { t with state := .attributeValueDoubleQuoted }
        else if c == Char.ofNat 39 then
          tokLoop n { t with state := .attributeValueSingleQuoted }
        else tokLoop n { t with reconsume := true, state := .attributeValueUnquoted }
      | .attributeValueDoubleQuoted =>
        if c == Char.ofNat 34 then tokLoop n { t with state := .afterAttributeValueQuoted }
        else if t.isEof then .ok (.eof, t)
        else do tokLoop n (← t.appendAttribute c false)
      | .attributeValueSingleQuoted =>
        if c == Char.ofNat 39 then tokLoop n { t with state := .afterAttributeValueQuoted }
        else if t.isEof then .ok (.eof, t)
        else do tokLoop n (← t.appendAttribute c false)
      | .attributeValueUnquoted =>
        if c == ' ' then tokLoop n { t with state := .beforeAttributeName }
        else if c == '>' then ({ t with state := .data }).takeLatestToken
        else if t.isEof then .ok (.eof, t)
        else do tokLoop n (← t.appendAttribute c false)
      | .afterAttributeValueQuoted =>
        if c == ' ' then tokLoop n { t with state := .beforeAttributeName }
        else if c == '/' then tokLoop n { t with state := .selfClosingStartTag }
        else if c == '>' then ({ t with state := .data }).takeLatestToken
        else if t.isEof then .ok (.eof, t)
        else tokLoop n { t with reconsume := true, state := .beforeAttributeName }
      | .selfClosingStartTag =>
        if c == '>' then do
          ({ (← t.setSelfClosingFlag) with state := .data }).takeLatestToken
        else if t.isEof then .ok (.eof, t)
        else tokLoop n t
      | .scriptData =>
        if c == '<' then tokLoop n { t with state := .scriptDataLessThanSign }
        else if t.isEof then .ok (.eof, t)
        else .ok (.char c, t)
      | .scriptDataLessThanSign =>
        if c == '/' then tokLoop n { t with buf := [], state := .scriptDataEndTagOpen }
        else .ok (.char '<', { t with reconsume := true, state := .scriptData })
      | .scriptDataEndTagOpen =>
        if c.isAlpha then
          tokLoop n ({ t with reconsume := true, state := .scriptDataEndTagName }).createEndTag
        else .ok (.char '<', { t with reconsume := true, state := .scriptData })
      | .scriptDataEndTagName =>
        if c == '>' then ({ t with state := .data }).takeLatestToken
        else if c.isAlpha then do
          tokLoop n (← ({ t with buf := t.buf ++ [c] }).appendTagName c.toLower)
        else
          tokLoop n { t with state := .temporaryBuffer,
                             buf := ['<', '/'] ++ t.buf ++ [c] }
      | .temporaryBuffer =>
        let t := { t with reconsume := true }
        match t.buf with
        | [] => tokLoop n { t with state := .scriptData }
        | b :: rest => .ok (.char b, { t with buf := rest })

/-- `<HtmlTokenizer as Iterator>::next`: `None` once the cursor has reached
the input length, otherwise the tokenizer loop (with ample fuel). -/
def HtmlTokenizer.next (t : HtmlTokenizer) : Res (Option (HtmlToken × HtmlTokenizer)) :=
  if t.input.length ≤ t.pos then .ok none
  else (tokLoop (4 * (t.input.length + t.buf.length + 4)) t).map some

/-- Drive the tokenizer to exhaustion, collecting the emitted tokens. -/
def tokenizeAll : Nat → HtmlTokenizer → Res (List HtmlToken)
  | 0, _ => .fuel
  | n + 1, t => do
    match ← t.next with
    | none => pure []
    | some (tok, t') => do pure (tok :: (← tokenizeAll n t'))

/-- All tokens of an input string (or the panic the tokenizer hits). -/
def tokenize (s : List Char) : Res (List HtmlToken) :=
  tokenizeAll (s.length + 2) (HtmlTokenizer.new s)

/-- Modelled from the spec: `renderer/dom/node.rs` is not under `src/`.
§3 gives the closed element-kind set
{Html, Head, Body, Style, Script, P, H1, H2, A, Span}. -/
inductive ElementKind where
  | html
  | head
  | body
  | style
  | script
  | p
  | h1
  | h2
  | a
  | span
deriving DecidableEq

/-- Modelled from the spec: `ElementKind::from_str` maps a lowercase tag name
to its element kind, failing on anything outside the closed set. -/
def ElementKind.fromStr (s : List Char) : Option ElementKind :=
  if s = ['h', 't', 'm', 'l'] then some .html
  else if s = ['h', 'e', 'a', 'd'] then some .head
  else if s = ['b', 'o', 'd', 'y'] then some .body
  else if s = ['s', 't', 'y', 'l', 'e'] then some .style
  else if s = ['s', 'c', 'r', 'i', 'p', 't'] then some .script
  else if s = ['p'] then some .p
  else if s = ['h', '1'] then some .h1
  else if s = ['h', '2'] then some .h2
  else if s = ['a'] then some .a
  else if s = ['s', 'p', 'a', 'n'] then some .span
  else none

/-- Modelled from the spec: `ElementKind`'s `to_string` gives the tag name. -/
def ElementKind.toStr : ElementKind → List Char
  | .html => ['h', 't', 'm', 'l']
  | .head => ['h', 'e', 'a', 'd']
  | .body => ['b', 'o', 'd', 'y']
  | .style => ['s', 't', 'y', 'l', 'e']
  | .script => ['s', 'c', 'r', 'i', 'p', 't']
  | .p => ['p']
  | .h1 => ['h', '1']
  | .h2 => ['h', '2']
  | .a => ['a']
  | .span => ['s', 'p', 'a', 'n']

/-- Modelled from the spec: a DOM `Element` is an element kind plus its
attribute list (§3). -/
structure Element where
  kind : ElementKind
  attributes : List Attribute
deriving DecidableEq

/-- Modelled from the spec: `NodeKind` — Document, Element, or Text with
accumulated character content (§3). -/
inductive NodeKind where
  | document
  | element (e : Element)
  | text (s : List Char)
deriving DecidableEq

/-- Modelled from the spec: one DOM node with its link fields (§3: owned
first-child / next-sibling, back-references parent / previous-sibling /
last-child).  The `Rc<RefCell<Node>>` graph is embedded as an arena of these
records addressed by index; an `Option Nat` link plays the role of an
optional (weak or strong) pointer. -/
structure NodeData where
  kind : NodeKind
  parent : Option Nat
  firstChild : Option Nat
  lastChild : Option Nat
  previousSibling : Option Nat
  nextSibling : Option Nat
deriving DecidableEq

def getNode (arena : List NodeData) (i : Nat) : Option NodeData := arena[i]?

def modifyNode (arena : List NodeData) (i : Nat) (f : NodeData → NodeData) : List NodeData :=
  match arena, i with
  | [], _ => []
  | x :: xs, 0 => f x :: xs
  | x :: xs, n + 1 => x :: modifyNode xs n f

/-- `Node::element_kind` on an arena node. -/
def elementKindOf (arena : List NodeData) (i : Nat) : Option ElementKind :=
  match getNode arena i with
  | some nd =>
    match nd.kind with
    | .element e => some e.kind
    | _ => none
  | none => none

/-- `renderer/html/parser.rs` `InsertionMode`. -/
inductive InsertionMode where
  | initial
  | beforeHtml
  | beforeHead
  | inHead
  | afterHead
  | inBody
  | text
  | afterBody
  | afterAfterBody
deriving DecidableEq

/-- `renderer/html/parser.rs` `HtmlParser`.  The window's document is the
arena node at index 0; the open-element stack stores arena indices with the
stack top first (the Rust `Vec`'s `last`/`push`/`pop` end). -/
structure HtmlParser where
  arena : List NodeData
  mode : InsertionMode
  originalMode : InsertionMode
  stack : List Nat
  t : HtmlTokenizer

/-- `HtmlParser::new`: a fresh window whose document is node 0. -/
def HtmlParser.new (t : HtmlTokenizer) : HtmlParser :=
  ⟨[⟨.document, none, none, none, none, none⟩], .initial, .initial, [], t⟩

/-- `HtmlParser::insert_element`.  The source computes `last_sibling` by
looping on `node.next_sibling()` — the next sibling of the freshly created
node, which is `None` — so the loop exits at once and `last_sibling` is the
current node's *first* child; the new node is then linked as that first
child's next sibling.  The crash case embeds `Element::new`'s `expect` on an
unknown tag name (never hit by the parser's call sites). -/
def HtmlParser.insertElement (ps : HtmlParser) (tag : List Char) (attrs : List Attribute) :
    Res HtmlParser :=
  let current := match ps.stack.head? with
    | some n => n
    | none => 0
  match ElementKind.fromStr tag with
  | none => .crash
  | some ek =>
    let newId := ps.arena.length
    let arena := ps.arena ++ [⟨.element ⟨ek, attrs⟩, none, none, none, none, none⟩]
    let arena :=
      match (getNode arena current).bind (·.firstChild) with
      | some fc =>
        let arena := modifyNode arena fc (fun nd => { nd with nextSibling := some newId })
        modifyNode arena newId (fun nd => { nd with previousSibling := some fc })
      | none => modifyNode arena current (fun nd => { nd with firstChild := some newId })
    let arena := modifyNode arena current (fun nd => { nd with lastChild := some newId })
    let arena := modifyNode arena newId (fun nd => { nd with parent := some current })
    .ok { ps with arena := arena, stack := newId :: ps.stack }

/-- `HtmlParser::contain_in_stack`. -/
def HtmlParser.containInStack (ps : HtmlParser) (ek : ElementKind) : Bool :=
  ps.stack.any (fun i => elementKindOf ps.arena i == some ek)

def popUntilGo (arena : List NodeData) (ek : ElementKind) : List Nat → List Nat
  | [] => []
  | i :: rest => if elementKindOf arena i == some ek then rest else popUntilGo arena ek rest

/-- `HtmlParser::pop_until`: asserts the kind is on the stack (a panic
otherwise), then pops until it has been popped. -/
def HtmlParser.popUntil (ps : HtmlParser) (ek : ElementKind) : Res HtmlParser :=
  if ps.containInStack ek then .ok { ps with stack := popUntilGo ps.arena ek ps.stack }
  else .crash

/-- `HtmlParser::pop_current_node`. -/
def HtmlParser.popCurrentNode (ps : HtmlParser) (ek : ElementKind) : Bool × HtmlParser :=
  match ps.stack.head? with
  | none => (false, ps)
  | some cur =>
    if elementKindOf ps.arena cur == some ek then (true, { ps with stack := ps.stack.tail })
    else (false, ps)

/-- `HtmlParser::insert_char`.  As in the source, the new text node is linked
as the next sibling of the current node's *first* child (the
previous-sibling back-link is commented out in the source), and the text
node is pushed onto the open-element stack. -/
def HtmlParser.insertChar (ps : HtmlParser) (c : Char) : HtmlParser :=
  match ps.stack.head? with
  | none => ps
  | some cur =>
    match (getNode ps.arena cur).map (·.kind) with
    | some (NodeKind.text s) =>
      { ps with arena := modifyNode ps.arena cur (fun nd => { nd with kind := .text (s ++ [c]) }) }
    | _ =>
      if c == '\n' || c == ' ' then ps
      else
        let newId := ps.arena.length
        let arena := ps.arena ++ [⟨.text [c], none, none, none, none, none⟩]
        let arena :=
          match (getNode arena cur).bind (·.firstChild) with
          | some fc => modifyNode arena fc (fun nd => { nd with nextSibling := some newId })
          | none => modifyNode arena cur (fun nd => { nd with firstChild := some newId })
        let arena := modifyNode arena cur (fun nd => { nd with lastChild := some newId })
        let arena := modifyNode arena newId (fun nd => { nd with parent := some cur })
        { ps with arena := arena, stack := newId :: ps.stack }

/-- Fetch the next token from the parser's tokenizer, threading the updated
tokenizer back into the parser state (`token = self.t.next()`). -/
def HtmlParser.advanceToken (ps : HtmlParser) : Res (Option HtmlToken × HtmlParser) :=
  ps.t.next.map fun r =>
    match r with
    | none => (none, ps)
    | some (tok, t') => (some tok, { ps with t := t' })

def tagHtml : List Char := ['h', 't', 'm', 'l']

def tagHead : List Char := ['h', 'e', 'a', 'd']

def tagBody : List Char := ['b', 'o', 'd', 'y']

def tagStyle : List Char := ['s', 't', 'y', 'l', 'e']

def tagScript : List Char := ['s', 'c', 'r', 'i', 'p', 't']

/-- The `InBody` supported tag set `{p, h1, h2, a, span}`. -/
def isPhrasingTag (tag : List Char) : Bool :=
  tag == ['p'] || tag == ['h', '1'] || tag == ['h', '2'] || tag == ['a'] ||
    tag == ['s', 'p', 'a', 'n']

/-- `HtmlParser::construct_tree`'s `while let Some(token)` loop, one
iteration per unit of fuel; `none` for the token ends the loop and returns
the window's arena. -/
def constructTree : Nat → HtmlParser → Option HtmlToken → Res (List NodeData)
  | 0, _, _ => .fuel
  | _ + 1, ps, none => .ok ps.arena
  | n + 1, ps, some tok =>
    match ps.mode with
    | .initial =>
      match tok with
      | .char _ => do
        let (tk, ps) ← ps.advanceToken
        constructTree n ps tk
      | _ => constructTree n { ps with mode := .beforeHtml } (some tok)
    | .beforeHtml =>
      let fall : Res (List NodeData) := do
        let ps ← ps.insertElement tagHtml []
        constructTree n { ps with mode := .beforeHead } (some tok)
      match tok with
      | .char c =>
        if c == ' ' || c == '\n' then do
          let (tk, ps) ← ps.advanceToken
          constructTree n ps tk
        else fall
      | .startTag tag _ attrs =>
        if tag == tagHtml then do
          let ps ← ps.insertElement tag attrs
          let (tk, ps) ← ps.advanceToken
          constructTree n { ps with mode := .beforeHead } tk
        else fall
      | .eof => .ok ps.arena
      | _ => fall
    | .beforeHead =>
      let fall : Res (List NodeData) := do
        let ps ← ps.insertElement tagHead []
        constructTree n { ps with mode := .inHead } (some tok)
      match tok with
      | .char c =>
        if c == ' ' || c == '\n' then do
          let (tk, ps) ← ps.advanceToken
          constructTree n ps tk
        else fall
      | .startTag tag _ attrs =>
        if tag == tagHead then do
          let ps ← ps.insertElement tag attrs
          let (tk, ps) ← ps.advanceToken
          constructTree n { ps with mode := .inHead } tk
        else fall
      | .eof => .ok ps.arena
      | _ => fall
    | .inHead =>
      -- unsupported tags such as `<meta>`/`<title>` are skipped at the bottom
      let fall : Res (List NodeData) := do
        let (tk, ps) ← ps.advanceToken
        constructTree n ps tk
      match tok with
      | .char c =>
        if c == ' ' || c == '\n' then do
          let ps := ps.insertChar c
          let (tk, ps) ← ps.advanceToken
          constructTree n ps tk
        else fall
      | .startTag tag _ attrs =>
        if tag == tagStyle || tag == tagScript then do
          let ps ← ps.insertElement tag attrs
          let ps := { ps with originalMode := ps.mode, mode := .text }
          let (tk, ps) ← ps.advanceToken
          constructTree n ps tk
        else if tag == tagBody then do
          let ps ← ps.popUntil .head
          constructTree n { ps with mode := .afterHead } (some tok)
        else
          match ElementKind.fromStr tag with
          | some _ => do
            let ps ← ps.popUntil .head
            constructTree n { ps with mode := .afterHead } (some tok)
          | none => fall
      | .endTag tag =>
        if tag == tagHead then do
          let ps := { ps with mode := .afterHead }
          let (tk, ps) ← ps.advanceToken
          let ps ← ps.popUntil .head
          constructTree n ps tk
        else fall
      | .eof => .ok ps.arena
    | .afterHead =>
      let fall : Res (List NodeData) := do
        let ps ← ps.insertElement tagBody []
        constructTree n { ps with mode := .inBody } (some tok)
      match tok with
      | .char c =>
        if c == ' ' || c == '\n' then do
          let ps := ps.insertChar c
          let (tk, ps) ← ps.advanceToken
          constructTree n ps tk
        else fall
      | .startTag tag _ attrs =>
        if tag == tagBody then do
          let ps ← ps.insertElement tag attrs
          let (tk, ps) ← ps.advanceToken
          constructTree n { ps with mode := .inBody } tk
        else fall
      | .eof => .ok ps.arena
      | _ => fall
    | .inBody =>
      match tok with
      | .startTag tag _ attrs =>
        if isPhrasingTag tag then do
          let ps ← ps.insertElement tag attrs
          let (tk, ps) ← ps.advanceToken
          constructTree n ps tk
        else do
          let (tk, ps) ← ps.advanceToken
          constructTree n ps tk
      | .endTag tag =>
        if tag == tagBody then do
          let ps := { ps with mode := .afterBody }
          let (tk, ps) ← ps.advanceToken
          if ps.containInStack .body then do
            let ps ← ps.popUntil .body
            constructTree n ps tk
          else
            -- parse failure: the token is ignored
            constructTree n ps tk
        else if tag == tagHtml then
          match ps.popCurrentNode .body with
          | (true, ps) =>
            let ps := { ps with mode := .afterBody }
            match ps.popCurrentNode .html with
            | (true, ps) => constructTree n ps (some tok)
            | (false, _) => .crash
          | (false, ps) => do
            let (tk, ps) ← ps.advanceToken
            constructTree n ps tk
        else if isPhrasingTag tag then
          match ElementKind.fromStr tag with
          | none => .crash
          | some ek => do
            let (tk, ps) ← ps.advanceToken
            let ps ← ps.popUntil ek
            constructTree n ps tk
        else do
          let (tk, ps) ← ps.advanceToken
          constructTree n ps tk
      | .eof => .ok ps.arena
      | .char c => do
        let ps := ps.insertChar c
        let (tk, ps) ← ps.advanceToken
        constructTree n ps tk
    | .text =>
      match tok with
      | .eof => .ok ps.arena
      | .endTag tag =>
        if tag == tagStyle then do
          let ps ← ps.popUntil .style
          let ps := { ps with mode := ps.originalMode }
          let (tk, ps) ← ps.advanceToken
          constructTree n ps tk
        else if tag == tagScript then do
          let ps ← ps.popUntil .script
          let ps := { ps with mode := ps.originalMode }
          let (tk, ps) ← ps.advanceToken
          constructTree n ps tk
        else constructTree n { ps with mode := ps.originalMode } (some tok)
      | .char c => do
        let ps := ps.insertChar c
        let (tk, ps) ← ps.advanceToken
        constructTree n ps tk
      | _ => constructTree n { ps with mode := ps.originalMode } (some tok)
    | .afterBody =>
      match tok with
      | .char _ => do
        let (tk, ps) ← ps.advanceToken
        constructTree n ps tk
      | .endTag tag =>
        if tag == tagHtml then do
          let ps := { ps with mode := .afterAfterBody }
          let (tk, ps) ← ps.advanceToken
          constructTree n ps tk
        else constructTree n { ps with mode := .inBody } (some tok)
      | .eof => .ok ps.arena
      | _ => constructTree n { ps with mode := .inBody } (some tok)
    | .afterAfterBody =>
      match tok with
      | .char _ => do
        let (tk, ps) ← ps.advanceToken
        constructTree n ps tk
      | .eof => .ok ps.arena
      | _ => constructTree n { ps with mode := .inBody } (some tok)

/-- The full parsing pipeline of `HtmlParser::construct_tree` on an input
string: returns the DOM arena (document at index 0), or the panic hit on
the way.  The fuel is ample for every input considered. -/
def parseHtml (s : List Char) : Res (List NodeData) := do
  let ps := HtmlParser.new (HtmlTokenizer.new s)
  let (tk, ps) ← ps.advanceToken
  constructTree (8 * (s.length + 8)) ps tk

/-- The arena indices of a node's children, following the owning
first-child / next-sibling chain. -/
def childIdsGo (arena : List NodeData) : Nat → Option Nat → List Nat
  | 0, _ => []
  | _, none => []
  | n + 1, some i => i :: childIdsGo arena n ((getNode arena i).bind (·.nextSibling))

def childIds (arena : List NodeData) (i : Nat) : List Nat :=
  childIdsGo arena (arena.length + 1) ((getNode arena i).bind (·.firstChild))

/-- The node kinds of a node's children in chain order. -/
def childKinds (arena : List NodeData) (i : Nat) : List NodeKind :=
  (childIds arena i).filterMap fun j => (getNode arena j).map (·.kind)

/-- Walk from a node along a path of child positions. -/
def descend (arena : List NodeData) : Nat → List Nat → Option Nat
  | i, [] => some i
  | i, k :: rest =>
    match (childIds arena i)[k]? with
    | some j => descend arena j rest
    | none => none

/-- The child kinds of the node reached from the document (index 0) by a
path of child positions. -/
def kindsAtPath (r : Res (List NodeData)) (path : List Nat) : Res (List NodeKind) :=
  r.map fun arena =>
    match descend arena 0 path with
    | some i => childKinds arena i
    | none => []

def inputLoneLt : List Char := ['<']

def inputStrayEndP : List Char :=
  ['<', 'b', 'o', 'd', 'y', '>', '<', '/', 'p', '>']

def inputUnterminatedTag : List Char := ['<', 'd', 'i', 'v']

def inputBodyText : List Char :=
  ['<', 'b', 'o', 'd', 'y', '>', 't', 'e', 'x', 't', '<', '/', 'b', 'o', 'd', 'y', '>']

def inputTwoSiblings : List Char :=
  ['<', 'b', 'o', 'd', 'y', '>', '<', 'p', '>', '<', '/', 'p', '>',
   '<', 'a', '>', '<', '/', 'a', '>', '<', '/', 'b', 'o', 'd', 'y', '>']

def inputThreeSiblings : List Char :=
  ['<', 'b', 'o', 'd', 'y', '>', '<', 'p', '>', '<', '/', 'p', '>',
   '<', 'a', '>', '<', '/', 'a', '>',
   '<', 's', 'p', 'a', 'n', '>', '<', '/', 's', 'p', 'a', 'n', '>',
   '<', '/', 'b', 'o', 'd', 'y', '>']

/-- C1: the claim that `construct_tree` runs to end of input and returns a
tree for every HTML input, never panicking, fails on the code.  The input
`"<"` panics inside the tokenizer (`consume_next_input` indexes one past the
end of the input: `is_eof` tests `pos > len`, which is never true because the
out-of-bounds index fires first), and `"<body></p>"` panics in `pop_until`'s
assertion because no `p` element is on the open-element stack when the
unmatched end tag is processed. -/
theorem c1_construct_tree_crashes :
    parseHtml inputLoneLt = .crash ∧ parseHtml inputStrayEndP = .crash := by decide

/-- C2: `insert_element` does not append the new element after the *last*
child.  Its `last_sibling` loop reads the fresh node's own `next_sibling`
(always `None`) instead of walking the chain, so the new element is linked as
the next sibling of the *first* child, detaching every later sibling.
Parsing `<body><p></p><a></a></body>` still yields body children `[p, a]`
(only one prior child), but adding `<span></span>` overwrites `p`'s
next-sibling link and the `a` element vanishes from the owning chain: body's
children come out as `[p, span]`, not `[p, a, span]`. -/
theorem c2_insert_element_detaches_second_child :
    kindsAtPath (parseHtml inputTwoSiblings) [0, 1]
        = .ok [.element ⟨.p, []⟩, .element ⟨.a, []⟩]
    ∧ kindsAtPath (parseHtml inputThreeSiblings) [0, 1]
        = .ok [.element ⟨.p, []⟩, .element ⟨.span, []⟩] := by decide

/-- C3: the tree constructor synthesizes omitted structural elements: the
empty input yields a Document with no children, and `<body>text</body>`
yields a Document whose only child is `html`, with children `head` (empty)
then `body`, whose only child is the text node `text`. -/
theorem c3_synthesized_structure :
    kindsAtPath (parseHtml []) [] = .ok []
    ∧ kindsAtPath (parseHtml inputBodyText) [] = .ok [.element ⟨.html, []⟩]
    ∧ kindsAtPath (parseHtml inputBodyText) [0]
        = .ok [.element ⟨.head, []⟩, .element ⟨.body, []⟩]
    ∧ kindsAtPath (parseHtml inputBodyText) [0, 0] = .ok []
    ∧ kindsAtPath (parseHtml inputBodyText) [0, 1] = .ok [.text ['t', 'e', 'x', 't']] := by
  decide

/-- C4: the claim that end-of-input inside a non-`Data` state makes `next()`
return a terminal `Eof` token fails on the code: on `"<div"` the very first
`next()` call moves the cursor past the end while in the `TagName` state and
panics on the out-of-bounds index in `consume_next_input` — the `is_eof`
guards (`pos > len`) are unreachable, so no `Eof` token is ever produced. -/
theorem c4_tokenizer_eof_crashes :
    HtmlTokenizer.next (HtmlTokenizer.new inputUnterminatedTag) = .crash
    ∧ tokenize inputUnterminatedTag = .crash := by decide

/-- `constants.rs` `WINDOW_WIDTH`. -/
def WINDOW_WIDTH : Nat := 600

/-- `constants.rs` `WINDOW_PADDING`. -/
def WINDOW_PADDING : Nat := 5

/-- `constants.rs` `CONTENT_AREA_WIDTH = WINDOW_WIDTH - WINDOW_PADDING * 2`. -/
def CONTENT_AREA_WIDTH : Nat := WINDOW_WIDTH - WINDOW_PADDING * 2

/-- `constants.rs` `CHAR_WIDTH`. -/
def CHAR_WIDTH : Nat := 8

/-- `constants.rs` `CHAR_HEIGHT`. -/
def CHAR_HEIGHT : Nat := 16

/-- `constants.rs` `CHAR_HEIGHT_WITH_PADDING = CHAR_HEIGHT + 4`. -/
def CHAR_HEIGHT_WITH_PADDING : Nat := CHAR_HEIGHT + 4

/-- Modelled from the spec: `computed_style.rs` is not under `src/`; §3 gives
the font-size tiers {Medium, XLarge, XXLarge}. -/
inductive FontSize where
  | medium
  | xLarge
  | xxLarge
deriving DecidableEq

/-- The `match self.style.font_size()` mapping used in `compute_size` and
`paint`: Medium ↦ 1, XLarge ↦ 2, XXLarge ↦ 3. -/
def fontScale : FontSize → Nat
  | .medium => 1
  | .xLarge => 2
  | .xxLarge => 3

/-- The UTF-8 encoded size of one character, as used by Rust's
`String::len`. -/
def charUtf8Size (c : Char) : Nat :=
  if c.toNat < 0x80 then 1
  else if c.toNat < 0x800 then 2
  else if c.toNat < 0x10000 then 3
  else 4

/-- Rust `String::len` / `str::len`: the UTF-8 byte length. -/
def byteLen (s : List Char) : Nat := (s.map charUtf8Size).sum

/-- `layout_object.rs` `LayoutPoint` (i64 coordinates, embedded as `Int`). -/
structure LayoutPoint where
  x : Int
  y : Int
deriving DecidableEq

/-- `layout_object.rs` `LayoutSize`. -/
structure LayoutSize where
  width : Int
  height : Int
deriving DecidableEq

/-- `layout_object.rs` `LayoutRect`. -/
structure LayoutRect where
  point : LayoutPoint
  size : LayoutSize
deriving DecidableEq

/-- The `Text` arm of `LayoutObject::compute_size`, on the text content `t`
of the node.  `t.len()` is the UTF-8 byte length; every quantity involved is
nonnegative, so the `i64` arithmetic (including `wrapping_rem` /
`wrapping_div`, which agree with plain division on these operands) is
carried out in `Nat` and injected into the `i64` fields at the end. -/
def computeSizeText (fs : FontSize) (t : List Char) : LayoutSize :=
  if CONTENT_AREA_WIDTH < CHAR_WIDTH * fontScale fs * byteLen t then
    ⟨Int.ofNat CONTENT_AREA_WIDTH,
     Int.ofNat (CHAR_HEIGHT_WITH_PADDING * fontScale fs *
       (if CHAR_WIDTH * fontScale fs * byteLen t % CONTENT_AREA_WIDTH = 0 then
          CHAR_WIDTH * fontScale fs * byteLen t / CONTENT_AREA_WIDTH
        else CHAR_WIDTH * fontScale fs * byteLen t / CONTENT_AREA_WIDTH + 1))⟩
  else
    ⟨Int.ofNat (CHAR_WIDTH * fontScale fs * byteLen t),
     Int.ofNat (CHAR_HEIGHT_WITH_PADDING * fontScale fs)⟩

/-- C5's Text size rule exactly as the claim words it: width is
`CHAR_WIDTH × ratio × character count`, clamped to `CONTENT_AREA_WIDTH` with
height `CHAR_HEIGHT_WITH_PADDING × ratio × ceil(width / CONTENT_AREA_WIDTH)`
when over-wide, else one line high.  (`(w + d - 1) / d` is `⌈w / d⌉`.) -/
def claimTextSizeChars (fs : FontSize) (t : List Char) : LayoutSize :=
  if CONTENT_AREA_WIDTH < CHAR_WIDTH * fontScale fs * t.length then
    ⟨Int.ofNat CONTENT_AREA_WIDTH,
     Int.ofNat (CHAR_HEIGHT_WITH_PADDING * fontScale fs *
       ((CHAR_WIDTH * fontScale fs * t.length + (CONTENT_AREA_WIDTH - 1)) /
         CONTENT_AREA_WIDTH))⟩
  else
    ⟨Int.ofNat (CHAR_WIDTH * fontScale fs * t.length),
     Int.ofNat (CHAR_HEIGHT_WITH_PADDING * fontScale fs)⟩

/-- The claim's Text size rule amended to count UTF-8 bytes (`t.len()`)
instead of characters, which is the only change the counterexample forces. -/
def claimTextSizeBytes (fs : FontSize) (t : List Char) : LayoutSize :=
  if CONTENT_AREA_WIDTH < CHAR_WIDTH * fontScale fs * byteLen t then
    ⟨Int.ofNat CONTENT_AREA_WIDTH,
     Int.ofNat (CHAR_HEIGHT_WITH_PADDING * fontScale fs *
       ((CHAR_WIDTH * fontScale fs * byteLen t + (CONTENT_AREA_WIDTH - 1)) /
         CONTENT_AREA_WIDTH))⟩
  else
    ⟨Int.ofNat (CHAR_WIDTH * fontScale fs * byteLen t),
     Int.ofNat (CHAR_HEIGHT_WITH_PADDING * fontScale fs)⟩

/-- C5 counterexample: on the one-character text `"あ"` (3 UTF-8 bytes) the
code computes width `CHAR_WIDTH × 1 × 3 = 24`, not the claimed
`CHAR_WIDTH × 1 × 1 = 8` — `compute_size` multiplies by `t.len()`, the byte
count, not the character count. -/
theorem c5_counterexample :
    computeSizeText .medium ['あ'] ≠ claimTextSizeChars .medium ['あ']
    ∧ (computeSizeText .medium ['あ']).width = 24
    ∧ (claimTextSizeChars .medium ['あ']).width = 8 := by decide

/-- C5 amended: for every font-size tier and text, the `Text` arm of
`compute_size` computes exactly the claimed clamp/ceil rule with the
character count replaced by the UTF-8 byte count. -/
theorem c5_text_size_formula (fs : FontSize) (t : List Char) :
    computeSizeText fs t = claimTextSizeBytes fs t := by
  unfold computeSizeText claimTextSizeBytes
  by_cases h : CONTENT_AREA_WIDTH < CHAR_WIDTH * fontScale fs * byteLen t
  · simp only [if_pos h]
    have hceil :
        (if CHAR_WIDTH * fontScale fs * byteLen t % CONTENT_AREA_WIDTH = 0 then
           CHAR_WIDTH * fontScale fs * byteLen t / CONTENT_AREA_WIDTH
         else CHAR_WIDTH * fontScale fs * byteLen t / CONTENT_AREA_WIDTH + 1)
          = (CHAR_WIDTH * fontScale fs * byteLen t + (CONTENT_AREA_WIDTH - 1)) /
              CONTENT_AREA_WIDTH := by
      have h590 : CONTENT_AREA_WIDTH = 590 := rfl
      rw [h590]
      split <;> omega
    rw [hceil]
  · simp only [if_neg h]

/-- Modelled from the spec: `computed_style.rs` is not under `src/`.  §3:
colors are either named (`red`, `blue`, …) or `#RRGGBB`-style hash codes. -/
inductive Color where
  | named (name : List Char)
  | code (hex : List Char)
deriving DecidableEq

/-- Modelled from the spec: the recognized color names (a closed list; the
claims only exercise `red` and `blue`). -/
def colorNames : List (List Char) :=
  [['w', 'h', 'i', 't', 'e'], ['b', 'l', 'a', 'c', 'k'], ['r', 'e', 'd'],
   ['g', 'r', 'e', 'e', 'n'], ['b', 'l', 'u', 'e'], ['g', 'r', 'a', 'y'],
   ['o', 'r', 'a', 'n', 'g', 'e'], ['y', 'e', 'l', 'l', 'o', 'w'],
   ['p', 'u', 'r', 'p', 'l', 'e'],
   ['l', 'i', 'g', 'h', 't', 'g', 'r', 'a', 'y']]

/-- Modelled from the spec: `Color::from_name`, failing on unknown names. -/
def Color.fromName (n : List Char) : Option Color :=
  if colorNames.contains n then some (.named n) else none

def Color.white : Color := .named ['w', 'h', 'i', 't', 'e']

def Color.black : Color := .named ['b', 'l', 'a', 'c', 'k']

def isHexDigitChar (c : Char) : Bool :=
  c.isDigit || ('a' ≤ c && c ≤ 'f') || ('A' ≤ c && c ≤ 'F')

/-- Modelled from the spec: `Color::from_code` accepts a `#RRGGBB` code and
fails on anything malformed. -/
def Color.fromCode (s : List Char) : Option Color :=
  if s.head? == some '#' && s.length == 7 && s.tail.all isHexDigitChar then
    some (.code s)
  else none

/-- Modelled from the spec: display type {Block, Inline, DisplayNone}. -/
inductive DisplayType where
  | block
  | inline
  | displayNone
deriving DecidableEq

/-- Modelled from the spec: `DisplayType::from_str` accepts `block`,
`inline` and `none`; anything else is an error (§4.4: the cascade then falls
back to `none`). -/
def DisplayType.fromStr (s : List Char) : Option DisplayType :=
  if s = ['b', 'l', 'o', 'c', 'k'] then some .block
  else if s = ['i', 'n', 'l', 'i', 'n', 'e'] then some .inline
  else if s = ['n', 'o', 'n', 'e'] then some .displayNone
  else none

/-- Modelled from the spec: `ComputedStyle` — background color, foreground
color, display type, font-size tier; properties start unset and are filled
by the cascade (setters) or by `defaulting` (§4.4). -/
structure ComputedStyle where
  backgroundColor : Option Color
  color : Option Color
  display : Option DisplayType
  fontSize : Option FontSize
deriving DecidableEq

def ComputedStyle.default : ComputedStyle := ⟨none, none, none, none⟩

/-- Modelled from the spec: `ComputedStyle::set_background_color`. -/
def ComputedStyle.setBackgroundColor (st : ComputedStyle) (c : Color) : ComputedStyle :=
  { st with backgroundColor := some c }

/-- Modelled from the spec: `ComputedStyle::set_color`. -/
def ComputedStyle.setColor (st : ComputedStyle) (c : Color) : ComputedStyle :=
  { st with color := some c }

/-- Modelled from the spec: `ComputedStyle::set_display`. -/
def ComputedStyle.setDisplay (st : ComputedStyle) (d : DisplayType) : ComputedStyle :=
  { st with display := some d }

/-- Modelled from the spec: the `font_size()` getter unwraps the property
with the Medium default `defaulting` would install. -/
def ComputedStyle.fontSizeValue (st : ComputedStyle) : FontSize :=
  st.fontSize.getD .medium

/-- Modelled from the spec: `renderer/css/token.rs` is not under `src/`; §3
lists the CSS token variants: identifier, at-keyword, hash-token (`#id`),
delimiter, quoted string, number, `{`, `}`, `:`, `;`.  Numbers are embedded
as integers (no claim exercises a numeric value). -/
inductive CssToken where
  | ident (s : List Char)
  | atKeyword (s : List Char)
  | hashToken (s : List Char)
  | delim (c : Char)
  | stringToken (s : List Char)
  | number (n : Int)
  | openCurly
  | closeCurly
  | colon
  | semiColon
deriving DecidableEq

/-- `cssom.rs` `Selector`. -/
inductive Selector where
  | typeSelector (s : List Char)
  | classSelector (s : List Char)
  | idSelector (s : List Char)
  | unknownSelector
deriving DecidableEq

/-- `cssom.rs` `Declaration`: property name plus one component value (a CSS
token, per `pub type ComponentValue = CssToken`). -/
structure Declaration where
  property : List Char
  value : CssToken
deriving DecidableEq

def Declaration.default : Declaration := ⟨[], .ident []⟩

/-- `cssom.rs` `QualifiedRule`. -/
structure QualifiedRule where
  selector : Selector
  declarations : List Declaration
deriving DecidableEq

/-- `QualifiedRule::default`: an empty type selector and no declarations. -/
def QualifiedRule.default : QualifiedRule := ⟨.typeSelector [], []⟩

/-- `cssom.rs` `StyleSheet`: the ordered rule list. -/
structure StyleSheet where
  rules : List QualifiedRule
deriving DecidableEq

/-- Rust `str::split(' ')` on a character list (empty runs included). -/
def splitOnSpaceGo : List Char → List Char → List (List Char)
  | [], acc => [acc.reverse]
  | c :: rest, acc =>
    if c == ' ' then acc.reverse :: splitOnSpaceGo rest []
    else splitOnSpaceGo rest (c :: acc)

def splitOnSpace (s : List Char) : List (List Char) := splitOnSpaceGo s []

/-- The whitespace normalisation at the top of `paint`'s Text arm:
`t.replace("\n", " ").split(' ').filter(|s| !s.is_empty()).join(" ")`. -/
def normalizeText (t : List Char) : List Char :=
  List.intercalate [' ']
    ((splitOnSpace (t.map fun c => if c == '\n' then ' ' else c)).filter
      fun s => !s.isEmpty)

/-- The `for i in (0..max_index).rev()` scan of `find_index_for_line_break`:
the largest `i < k` with the character at `i` a space, if any.  (The source's
`line` parameter is renamed `ln`: `line` followed by `[` collides with a
Mathlib notation.) -/
def lastSpaceScan (ln : List Char) : Nat → Option Nat
  | 0 => none
  | k + 1 => if ln[k]? == some ' ' then some k else lastSpaceScan ln k

/-- `find_index_for_line_break`: the right-most space strictly below
`max_index`, defaulting to `max_index` itself when there is none.  (The
caller guarantees `max_index < line.len()`, so the source's indexing is in
bounds.) -/
def findIndexForLineBreak (ln : List Char) (maxIndex : Nat) : Nat :=
  match lastSpaceScan ln maxIndex with
  | some i => i
  | none => maxIndex

/-- Rust `str::trim` (the strings this pipeline trims only carry ASCII
whitespace, which `Char.isWhitespace` covers). -/
def rustTrim (s : List Char) : List Char :=
  ((s.dropWhile Char.isWhitespace).reverse.dropWhile Char.isWhitespace).reverse

/-- `split_text`'s recursion, one split per unit of fuel.  The pixel-width
limit is `WINDOW_WIDTH + WINDOW_PADDING` (the *window*-derived limit, not
the content-area width); `line.len()` is the byte length; `split_at` takes a
byte index, which coincides with the character index on the ASCII text the
claims and the wrapping exercise.  For the char widths the renderer uses
(8, 16, 24) the fuel `line.length + 1` is never exhausted, because each
recursion strictly shrinks the line. -/
def splitTextGo (charWidth : Nat) : Nat → List Char → List (List Char)
  | 0, ln => [ln]
  | n + 1, ln =>
    if WINDOW_WIDTH + WINDOW_PADDING < byteLen ln * charWidth then
      (ln.take (findIndexForLineBreak ln ((WINDOW_WIDTH + WINDOW_PADDING) / charWidth))) ::
        splitTextGo charWidth n
          (rustTrim (ln.drop
            (findIndexForLineBreak ln ((WINDOW_WIDTH + WINDOW_PADDING) / charWidth))))
    else [ln]

/-- `layout_object.rs` `split_text`. -/
def splitText (ln : List Char) (charWidth : Nat) : List (List Char) :=
  splitTextGo charWidth (ln.length + 1) ln

/-- `display_item.rs` `DisplayItem`. -/
inductive DisplayItem where
  | rectItem (style : ComputedStyle) (layoutRect : LayoutRect)
  | textItem (text : List Char) (style : ComputedStyle) (layoutPoint : LayoutPoint)
deriving DecidableEq

/-- The `Text` arm of `LayoutObject::paint` on the node's text content `t`:
normalise whitespace, wrap with `split_text` at `CHAR_WIDTH * ratio`, and
emit one `DisplayItem::Text` per line, the `i`-th at
`(rect.x, rect.y + CHAR_HEIGHT_WITH_PADDING * i)`. -/
def paintText (st : ComputedStyle) (pt : LayoutPoint) (t : List Char) : List DisplayItem :=
  (splitText (normalizeText t) (CHAR_WIDTH * fontScale st.fontSizeValue)).enum.map
    fun pr =>
      .textItem pr.2 st ⟨pt.x, pt.y + Int.ofNat (CHAR_HEIGHT_WITH_PADDING * pr.1)⟩

def aChars74 : List Char := List.replicate 74 'a'

/-- C6 counterexample: a Text node of 74 `a`s renders 592 px wide at Medium,
which exceeds the 590 px content area (so `compute_size` clamps the width
and reports `ceil(592 / 590) = 2` lines), yet `paint` emits exactly **one**
Text display item, because `split_text` wraps at the window-derived limit
`WINDOW_WIDTH + WINDOW_PADDING = 605` px and `592 ≤ 605`.  The claimed item
count `ceil(total width / content width)` is therefore wrong. -/
theorem c6_counterexample :
    CONTENT_AREA_WIDTH < CHAR_WIDTH * fontScale .medium * byteLen aChars74
    ∧ (computeSizeText .medium aChars74).width = Int.ofNat CONTENT_AREA_WIDTH
    ∧ (paintText ⟨none, none, none, some .medium⟩ ⟨0, 0⟩ aChars74).length = 1
    ∧ (CHAR_WIDTH * fontScale .medium * byteLen aChars74 + (CONTENT_AREA_WIDTH - 1)) /
        CONTENT_AREA_WIDTH = 2 := by decide

/-- C6 amended: for ASCII text, `paint`'s Text arm emits one Text display
item per line of the greedy wrap `split_text` (which breaks at the
right-most space before the `WINDOW_WIDTH + WINDOW_PADDING` pixel limit —
not `ceil(width / content width)` items), and the `i`-th item carries the
`i`-th line at `y` offset exactly `CHAR_HEIGHT_WITH_PADDING × i`, i.e. each
subsequent item sits one line height below the previous one. -/
theorem c6_paint_lines (st : ComputedStyle) (pt : LayoutPoint) (t : List Char)
    (_hascii : ∀ c ∈ t, c.toNat < 128) :
    (paintText st pt t).length
      = (splitText (normalizeText t) (CHAR_WIDTH * fontScale st.fontSizeValue)).length
    ∧ ∀ i : Nat,
        (paintText st pt t)[i]?
          = ((splitText (normalizeText t) (CHAR_WIDTH * fontScale st.fontSizeValue))[i]?).map
              fun line' => DisplayItem.textItem line' st
                ⟨pt.x, pt.y + Int.ofNat (CHAR_HEIGHT_WITH_PADDING * i)⟩ := by
  constructor
  · simp [paintText]
  · intro i
    simp only [paintText, List.getElem?_map, List.enum, List.getElem?_enumFrom, Nat.zero_add,
      Option.map_map]
    cases (splitText (normalizeText t) (CHAR_WIDTH * fontScale st.fontSizeValue))[i]? <;> simp

/-- C6 witness: the amended theorem applied to the 74-`a` text at Medium. -/
theorem c6_paint_lines_witness :
    (∀ c ∈ aChars74, c.toNat < 128)
    ∧ ((paintText ⟨none, none, none, some .medium⟩ ⟨0, 0⟩ aChars74).length
        = (splitText (normalizeText aChars74)
            (CHAR_WIDTH *
              fontScale (ComputedStyle.fontSizeValue ⟨none, none, none, some .medium⟩))).length
      ∧ ∀ i : Nat,
          (paintText ⟨none, none, none, some .medium⟩ ⟨0, 0⟩ aChars74)[i]?
            = ((splitText (normalizeText aChars74)
                (CHAR_WIDTH *
                  fontScale
                    (ComputedStyle.fontSizeValue ⟨none, none, none, some .medium⟩)))[i]?).map
                fun line' => DisplayItem.textItem line' ⟨none, none, none, some .medium⟩
                  ⟨(0 : Int), (0 : Int) + Int.ofNat (CHAR_HEIGHT_WITH_PADDING * i)⟩) :=
  ⟨by decide, c6_paint_lines ⟨none, none, none, some .medium⟩ ⟨0, 0⟩ aChars74 (by decide)⟩

/-- `layout_object.rs` `LayoutObjectKind`. -/
inductive LayoutObjectKind where
  | block
  | inline
  | text
deriving DecidableEq, BEq

/-- `layout_object.rs` `LayoutObject`, as a tree value: the layout kind, the
referenced DOM node's kind, the owned first-child / next-sibling links, the
computed style and the rect.  (The non-owning parent back-reference carries
no information the claims need and is omitted from the value
representation.) -/
inductive LayoutObjectTree where
  | mk (kind : LayoutObjectKind) (node : NodeKind) (firstChild : Option LayoutObjectTree)
      (nextSibling : Option LayoutObjectTree) (style : ComputedStyle) (rect : LayoutRect)

def LayoutObjectTree.kind : LayoutObjectTree → LayoutObjectKind
  | .mk k _ _ _ _ _ => k

def LayoutObjectTree.rect : LayoutObjectTree → LayoutRect
  | .mk _ _ _ _ _ r => r

/-- `impl PartialEq for LayoutObject`: `self.kind == other.kind`, nothing
else. -/
def layoutObjectEq (a b : LayoutObjectTree) : Bool := a.kind == b.kind

/-- `LayoutRect::is_hit`: `x` and `y` each between the edge coordinates, both
comparisons inclusive. -/
def LayoutRect.isHit (r : LayoutRect) (p : LayoutPoint) : Bool :=
  (decide (r.point.x ≤ p.x) && decide (p.x ≤ r.point.x + r.size.width))
    && (decide (r.point.y ≤ p.y) && decide (p.y ≤ r.point.y + r.size.height))

/-- The document order of a layout (sub)tree: a node first, then its
first-child subtree, then its next-sibling subtree. -/
def docOrder : Option LayoutObjectTree → List LayoutObjectTree
  | none => []
  | some (.mk k nk fc ns st r) => .mk k nk fc ns st r :: (docOrder fc ++ docOrder ns)

/-- Modelled from the spec: `LayoutView::find_node_by_position` (the hit-test
walk `Page::clicked` relies on) is not under `src/`.  §4.7: "it walks the
layout tree in the same order [first-child before next-sibling], testing each
rect with inclusive bounds on both edges, and returns the first
(document-order) match". -/
def findNodeByPosition (o : Option LayoutObjectTree) (p : LayoutPoint) :
    Option LayoutObjectTree :=
  match o with
  | none => none
  | some (.mk k nk fc ns st r) =>
    if LayoutRect.isHit r p then some (.mk k nk fc ns st r)
    else
      match findNodeByPosition fc p with
      | some hit => some hit
      | none => findNodeByPosition ns p

theorem findNodeByPosition_eq_find (o : Option LayoutObjectTree) (p : LayoutPoint) :
    findNodeByPosition o p = (docOrder o).find? fun nd => nd.rect.isHit p := by
  match o with
  | none => simp [findNodeByPosition, docOrder]
  | some (.mk k nk fc ns st r) =>
    have h1 := findNodeByPosition_eq_find fc p
    have h2 := findNodeByPosition_eq_find ns p
    by_cases hhit : LayoutRect.isHit r p
    · have hp : ((LayoutObjectTree.mk k nk fc ns st r).rect).isHit p = true := hhit
      simp [findNodeByPosition, docOrder, hhit, hp, List.find?]
    · have hfalse : LayoutRect.isHit r p = false := by
        cases hb : LayoutRect.isHit r p
        · rfl
        · exact absurd hb hhit
      have hp : ((LayoutObjectTree.mk k nk fc ns st r).rect).isHit p = false := hfalse
      simp only [findNodeByPosition, docOrder, hfalse, hp, List.find?, List.find?_append,
        h1, h2, Bool.false_eq_true, if_false]
      cases List.find? (fun nd => nd.rect.isHit p) (docOrder fc) <;> simp [Option.or]

/-- C8: `is_hit` holds exactly when the point is between the rect's edges on
both axes, boundary edges included, and the hit-test walk (node before
first-child subtree before next-sibling subtree) returns the first node in
document order whose rect contains the point. -/
theorem c8_hit_test :
    (∀ (r : LayoutRect) (p : LayoutPoint),
        r.isHit p = true ↔
          (r.point.x ≤ p.x ∧ p.x ≤ r.point.x + r.size.width ∧
           r.point.y ≤ p.y ∧ p.y ≤ r.point.y + r.size.height))
    ∧ ∀ (o : Option LayoutObjectTree) (p : LayoutPoint),
        findNodeByPosition o p = (docOrder o).find? fun nd => nd.rect.isHit p := by
  constructor
  · intro r p
    simp [LayoutRect.isHit, and_assoc]
  · exact findNodeByPosition_eq_find

def objKindDemoA : LayoutObjectTree :=
  .mk .block .document none none ComputedStyle.default ⟨⟨0, 0⟩, ⟨0, 0⟩⟩

def objKindDemoB : LayoutObjectTree :=
  .mk .block (.text ['x']) none none ⟨some Color.white, none, some .block, some .medium⟩
    ⟨⟨1, 2⟩, ⟨3, 4⟩⟩

/-- C10: `PartialEq` on `LayoutObject` compares only the layout kind: two
layout objects compare equal exactly when their kinds agree, whatever their
DOM node, style, children, siblings or rect — witnessed by two structurally
different Block objects that compare equal. -/
theorem c10_partial_eq_kind_only :
    (∀ a b : LayoutObjectTree, layoutObjectEq a b = true ↔ a.kind = b.kind)
    ∧ layoutObjectEq objKindDemoA objKindDemoB = true
    ∧ objKindDemoA ≠ objKindDemoB := by
  refine ⟨fun a b => ?_, rfl, ?_⟩
  · rcases a with ⟨ka, na, fca, nsa, sta, ra⟩
    rcases b with ⟨kb, nb, fcb, nsb, stb, rb⟩
    cases ka <;> cases kb <;> simp [layoutObjectEq, LayoutObjectTree.kind] <;> decide
  · intro h
    rw [objKindDemoA, objKindDemoB] at h
    injection h with h1 h2 h3 h4 h5 h6
    exact absurd h2 (by decide)

def isCssIdentChar (c : Char) : Bool :=
  c.isAlpha || c.isDigit || c == '-' || c == '_'

/-- Modelled from the spec: the CSS tokenizer (`renderer/css/token.rs` is not
under `src/`).  §4.3 calls it "a simple lexer … no special edge cases beyond
token classification": whitespace separates tokens; `{`, `}`, `:`, `;` are
punctuation; `#` begins a hash token (stored with its `#`, matching
`consume_selector`'s `v[1..]`); `@` an at-keyword; a quote a string run to
the matching quote; a digit a number; a letter or `-` an identifier;
anything else a single-character delimiter. -/
def cssLex : Nat → List Char → List CssToken
  | 0, _ => []
  | _ + 1, [] => []
  | n + 1, c :: rest =>
    if c == ' ' || c == '\n' || c == '\t' then cssLex n rest
    else if c == '{' then .openCurly :: cssLex n rest
    else if c == '}' then .closeCurly :: cssLex n rest
    else if c == ':' then .colon :: cssLex n rest
    else if c == ';' then .semiColon :: cssLex n rest
    else if c == '#' then
      .hashToken (c :: rest.takeWhile isCssIdentChar) ::
        cssLex n (rest.drop (rest.takeWhile isCssIdentChar).length)
    else if c == '@' then
      .atKeyword (rest.takeWhile isCssIdentChar) ::
        cssLex n (rest.drop (rest.takeWhile isCssIdentChar).length)
    else if c == Char.ofNat 34 then
      .stringToken (rest.takeWhile fun d => !(d == Char.ofNat 34)) ::
        cssLex n (rest.drop ((rest.takeWhile fun d => !(d == Char.ofNat 34)).length + 1))
    else if c == Char.ofNat 39 then
      .stringToken (rest.takeWhile fun d => !(d == Char.ofNat 39)) ::
        cssLex n (rest.drop ((rest.takeWhile fun d => !(d == Char.ofNat 39)).length + 1))
    else if c.isDigit then
      .number (Int.ofNat (((c :: rest).takeWhile Char.isDigit).foldl
          (fun acc d => acc * 10 + (d.toNat - 48)) 0)) ::
        cssLex n (rest.drop (((c :: rest).takeWhile Char.isDigit).length - 1))
    else if c.isAlpha || c == '-' then
      .ident ((c :: rest).takeWhile isCssIdentChar) ::
        cssLex n (rest.drop (((c :: rest).takeWhile isCssIdentChar).length - 1))
    else .delim c :: cssLex n rest

def cssTokenize (s : List Char) : List CssToken := cssLex (s.length + 1) s

/-- `CssParser::consume_ident`: panics on end of stream or a non-identifier
token. -/
def consumeIdent : List CssToken → Res (List Char × List CssToken)
  | .ident s :: rest => .ok (s, rest)
  | _ :: _ => .crash
  | [] => .crash

/-- `CssParser::consume_component_value`: `self.t.next().expect(…)`. -/
def consumeComponentValue : List CssToken → Res (CssToken × List CssToken)
  | tok :: rest => .ok (tok, rest)
  | [] => .crash

/-- `CssParser::consume_declaration`: `ident ':' component-value`; a missing
colon consumes the offending token and yields no declaration. -/
def consumeDeclaration (ts : List CssToken) : Res (Option Declaration × List CssToken) :=
  match ts.head? with
  | none => .ok (none, ts)
  | some _ => do
    let (prop, ts) ← consumeIdent ts
    match ts with
    | .colon :: ts => do
      let (v, ts) ← consumeComponentValue ts
      pure (some ⟨prop, v⟩, ts)
    | _ :: ts => pure (none, ts)
    | [] => pure (none, [])

/-- `CssParser::consume_list_of_declarations`, one loop iteration per unit of
fuel. -/
def consumeListOfDeclarations : Nat → List CssToken → Res (List Declaration × List CssToken)
  | 0, _ => .fuel
  | n + 1, ts =>
    match ts.head? with
    | none => .ok ([], ts)
    | some .closeCurly => .ok ([], ts.tail)
    | some .semiColon => consumeListOfDeclarations n ts.tail
    | some (.ident _) => do
      let (d?, ts) ← consumeDeclaration ts
      let (ds, ts') ← consumeListOfDeclarations n ts
      match d? with
      | some d => pure (d :: ds, ts')
      | none => pure (ds, ts')
    | some _ => consumeListOfDeclarations n ts.tail

/-- The `while self.t.peek() != Some(&CssToken::OpenCurly)` skip loops in
`consume_selector`; on an exhausted stream the source spins forever, which
the fuel bound cuts off as a `fuel` outcome. -/
def skipToOpenCurly : Nat → List CssToken → Res (List CssToken)
  | 0, _ => .fuel
  | n + 1, ts =>
    match ts.head? with
    | some .openCurly => .ok ts
    | some _ => skipToOpenCurly n ts.tail
    | none => skipToOpenCurly n []

/-- `CssParser::consume_selector`. -/
def consumeSelector (fuelN : Nat) (ts : List CssToken) : Res (Selector × List CssToken) :=
  match ts with
  | [] => .crash
  | tok :: rest =>
    match tok with
    | .hashToken v => .ok (.idSelector (v.drop 1), rest)
    | .delim d =>
      if d == '.' then (consumeIdent rest).map fun pr => (.classSelector pr.1, pr.2)
      else .crash
    | .ident idName =>
      if rest.head? == some .colon then
        (skipToOpenCurly fuelN rest).map fun ts' => (.typeSelector idName, ts')
      else .ok (.typeSelector idName, rest)
    | .atKeyword _ =>
      (skipToOpenCurly fuelN rest).map fun ts' => (.unknownSelector, ts')
    | _ => .ok (.unknownSelector, rest.tail)

/-- `CssParser::consume_qualified_rule`, one loop iteration per unit of
fuel. -/
def consumeQualifiedRule : Nat → QualifiedRule → List CssToken →
    Res (Option QualifiedRule × List CssToken)
  | 0, _, _ => .fuel
  | n + 1, rule, ts =>
    match ts.head? with
    | none => .ok (none, ts)
    | some .openCurly => do
      let (ds, ts) ← consumeListOfDeclarations (n + 1) ts.tail
      pure (some { rule with declarations := ds }, ts)
    | some _ => do
      let (sel, ts) ← consumeSelector (n + 1) ts
      consumeQualifiedRule n { rule with selector := sel } ts

/-- `CssParser::consume_list_of_rules`: at-keyword rules are consumed and
discarded, anything else is a qualified rule appended in source order. -/
def consumeListOfRules : Nat → List CssToken → Res (List QualifiedRule)
  | 0, _ => .fuel
  | n + 1, ts =>
    match ts.head? with
    | none => .ok []
    | some (.atKeyword _) => do
      let (_r, ts) ← consumeQualifiedRule (n + 1) QualifiedRule.default ts
      consumeListOfRules n ts
    | some _ => do
      let (r?, ts) ← consumeQualifiedRule (n + 1) QualifiedRule.default ts
      match r? with
      | some r => do pure (r :: (← consumeListOfRules n ts))
      | none => .ok []

/-- `CssParser::parse_stylesheet` on a token stream. -/
def parseStylesheet (ts : List CssToken) : Res StyleSheet :=
  (consumeListOfRules (2 * ts.length + 8) ts).map fun rs => ⟨rs⟩

/-- The CSS pipeline: tokenize (spec-modelled lexer), then parse
(`cssom.rs`). -/
def parseCss (s : List Char) : Res StyleSheet := parseStylesheet (cssTokenize s)

def cssInputTypeRule : List Char :=
  ['p', ' ', '{', ' ', 'c', 'o', 'l', 'o', 'r', ':', ' ', 'r', 'e', 'd', ';', ' ', '}']

def cssInputIdRule : List Char :=
  ['#', 'i', 'd', ' ', '{', ' ', 'c', 'o', 'l', 'o', 'r', ':', ' ', 'r', 'e', 'd', ';', ' ', '}']

def cssInputClassRule : List Char :=
  ['.', 'c', 'l', 'a', 's', 's', ' ', '{', ' ', 'c', 'o', 'l', 'o', 'r', ':', ' ', 'r', 'e',
   'd', ';', ' ', '}']

def cssInputTwoRules : List Char :=
  ['p', ' ', '{', ' ', 'c', 'o', 'l', 'o', 'r', ':', ' ', 'r', 'e', 'd', ';', ' ', '}', ' ',
   'h', '1', ' ', '{', ' ', 'c', 'o', 'l', 'o', 'r', ':', ' ', 'b', 'l', 'u', 'e', ';', ' ', '}']

def declColorRed : Declaration :=
  ⟨['c', 'o', 'l', 'o', 'r'], .ident ['r', 'e', 'd']⟩

def declColorBlue : Declaration :=
  ⟨['c', 'o', 'l', 'o', 'r'], .ident ['b', 'l', 'u', 'e']⟩

/-- C9: `p { color: red; }` parses to exactly one rule with
`TypeSelector("p")` and declarations `[("color", Ident("red"))]`; `#id` and
`.class` selectors parse to `IdSelector("id")` and `ClassSelector("class")`;
and two consecutive rules parse to a `StyleSheet` with both entries in
source order. -/
theorem c9_css_parsing :
    parseCss cssInputTypeRule
        = .ok ⟨[⟨.typeSelector ['p'], [declColorRed]⟩]⟩
    ∧ parseCss cssInputIdRule
        = .ok ⟨[⟨.idSelector ['i', 'd'], [declColorRed]⟩]⟩
    ∧ parseCss cssInputClassRule
        = .ok ⟨[⟨.classSelector ['c', 'l', 'a', 's', 's'], [declColorRed]⟩]⟩
    ∧ parseCss cssInputTwoRules
        = .ok ⟨[⟨.typeSelector ['p'], [declColorRed]⟩,
                ⟨.typeSelector ['h', '1'], [declColorBlue]⟩]⟩ := by decide

def propBackgroundColor : List Char :=
  ['b', 'a', 'c', 'k', 'g', 'r', 'o', 'u', 'n', 'd', '-', 'c', 'o', 'l', 'o', 'r']

def propColor : List Char := ['c', 'o', 'l', 'o', 'r']

def propDisplay : List Char := ['d', 'i', 's', 'p', 'l', 'a', 'y']

/-- `LayoutObject::is_node_selected`, on the DOM node kind the layout object
references: tag-name equality for type selectors, `class`/`id`
attribute-value equality for class/id selectors; non-Element nodes never
match. -/
def isNodeSelected (nk : NodeKind) (sel : Selector) : Bool :=
  match nk with
  | .element e =>
    match sel with
    | .typeSelector tn => e.kind.toStr == tn
    | .classSelector cn =>
      e.attributes.any fun attr => attr.name == ['c', 'l', 'a', 's', 's'] && attr.value == cn
    | .idSelector idn =>
      e.attributes.any fun attr => attr.name == ['i', 'd'] && attr.value == idn
    | .unknownSelector => false
  | _ => false

/-- One iteration of `LayoutObject::cascading_style`'s declaration loop:
`background-color` and `color` accept identifier or hash values (falling
back to white / black on an unparsable color), `display` an identifier
(falling back to `none`); any other property or value form is ignored. -/
def applyDeclaration (st : ComputedStyle) (d : Declaration) : ComputedStyle :=
  if d.property = propBackgroundColor then
    match d.value with
    | .ident v => st.setBackgroundColor ((Color.fromName v).getD Color.white)
    | .hashToken cc => st.setBackgroundColor ((Color.fromCode cc).getD Color.white)
    | _ => st
  else if d.property = propColor then
    match d.value with
    | .ident v => st.setColor ((Color.fromName v).getD Color.black)
    | .hashToken cc => st.setColor ((Color.fromCode cc).getD Color.black)
    | _ => st
  else if d.property = propDisplay then
    match d.value with
    | .ident v => st.setDisplay ((DisplayType.fromStr v).getD .displayNone)
    | _ => st
  else st

/-- `LayoutObject::cascading_style`: apply the declarations in order. -/
def cascadingStyle (st : ComputedStyle) (ds : List Declaration) : ComputedStyle :=
  ds.foldl applyDeclaration st

/-- The rule loop of `create_layout_object` (`layout_view.rs`): every rule of
the sheet is tested in order with `is_node_selected`, and each matching
rule's declarations are cascaded onto the style. -/
def applyMatchingRules (nk : NodeKind) (sheet : StyleSheet) (st : ComputedStyle) :
    ComputedStyle :=
  sheet.rules.foldl
    (fun s r => if isNodeSelected nk r.selector then cascadingStyle s r.declarations else s) st

/-- The declarations of the matching rules, concatenated in sheet order. -/
def matchedDeclarations (nk : NodeKind) (sheet : StyleSheet) : List Declaration :=
  (sheet.rules.filter fun r => isNodeSelected nk r.selector).flatMap (·.declarations)

/-- The foreground-color value a declaration contributes to the cascade, if
any: a `color` property with an identifier or hash value (black fallback). -/
def colorValueOfDecl (d : Declaration) : Option Color :=
  if d.property = propColor then
    match d.value with
    | .ident v => some ((Color.fromName v).getD Color.black)
    | .hashToken cc => some ((Color.fromCode cc).getD Color.black)
    | _ => none
  else none

/-- The background-color value a declaration contributes, if any. -/
def backgroundValueOfDecl (d : Declaration) : Option Color :=
  if d.property = propBackgroundColor then
    match d.value with
    | .ident v => some ((Color.fromName v).getD Color.white)
    | .hashToken cc => some ((Color.fromCode cc).getD Color.white)
    | _ => none
  else none

/-- The display value a declaration contributes, if any. -/
def displayValueOfDecl (d : Declaration) : Option DisplayType :=
  if d.property = propDisplay then
    match d.value with
    | .ident v => some ((DisplayType.fromStr v).getD .displayNone)
    | _ => none
  else none

theorem cascadingStyle_append (st : ComputedStyle) (ds1 ds2 : List Declaration) :
    cascadingStyle st (ds1 ++ ds2) = cascadingStyle (cascadingStyle st ds1) ds2 :=
  List.foldl_append ..

theorem foldlRules_eq (nk : NodeKind) (rules : List QualifiedRule) (st : ComputedStyle) :
    List.foldl
        (fun s r => if isNodeSelected nk r.selector then cascadingStyle s r.declarations else s)
        st rules
      = cascadingStyle st
          ((rules.filter fun r => isNodeSelected nk r.selector).flatMap (·.declarations)) := by
  induction rules generalizing st with
  | nil => rfl
  | cons r rs ih =>
    simp only [List.foldl_cons, List.filter_cons]
    by_cases h : isNodeSelected nk r.selector
    · simp only [h, if_true, List.flatMap_cons, cascadingStyle_append]
      exact ih _
    · simp only [h, Bool.false_eq_true, if_false]
      exact ih st

theorem applyMatchingRules_eq (nk : NodeKind) (sheet : StyleSheet) (st : ComputedStyle) :
    applyMatchingRules nk sheet st = cascadingStyle st (matchedDeclarations nk sheet) :=
  foldlRules_eq nk sheet.rules st

theorem applyDeclaration_color_of_none {d : Declaration} (st : ComputedStyle)
    (h : colorValueOfDecl d = none) : (applyDeclaration st d).color = st.color := by
  rcases d with ⟨prop, v⟩
  unfold colorValueOfDecl at h
  unfold applyDeclaration
  by_cases h1 : prop = propBackgroundColor
  · simp only [if_pos h1]
    cases v <;> simp [ComputedStyle.setBackgroundColor]
  · by_cases h2 : prop = propColor
    · simp only [if_pos h2] at h
      simp only [if_neg h1, if_pos h2]
      cases v <;> simp_all
    · by_cases h3 : prop = propDisplay
      · simp only [if_neg h1, if_neg h2, if_pos h3]
        cases v <;> simp [ComputedStyle.setDisplay]
      · simp [h1, h2, h3]

theorem applyDeclaration_color_of_some {d : Declaration} (st : ComputedStyle) {v : Color}
    (h : colorValueOfDecl d = some v) : (applyDeclaration st d).color = some v := by
  rcases d with ⟨prop, w⟩
  unfold colorValueOfDecl at h
  unfold applyDeclaration
  by_cases h2 : prop = propColor
  · have h1 : prop ≠ propBackgroundColor := by
      rw [h2]; decide
    simp only [if_pos h2] at h
    simp only [if_neg h1, if_pos h2]
    cases w <;> simp_all [ComputedStyle.setColor]
  · simp only [if_neg h2] at h
    exact absurd h (by simp)

theorem applyDeclaration_background_of_none {d : Declaration} (st : ComputedStyle)
    (h : backgroundValueOfDecl d = none) :
    (applyDeclaration st d).backgroundColor = st.backgroundColor := by
  rcases d with ⟨prop, v⟩
  unfold backgroundValueOfDecl at h
  unfold applyDeclaration
  by_cases h1 : prop = propBackgroundColor
  · simp only [if_pos h1] at h
    simp only [if_pos h1]
    cases v <;> simp_all
  · by_cases h2 : prop = propColor
    · simp only [if_neg h1, if_pos h2]
      cases v <;> simp [ComputedStyle.setColor]
    · by_cases h3 : prop = propDisplay
      · simp only [if_neg h1, if_neg h2, if_pos h3]
        cases v <;> simp [ComputedStyle.setDisplay]
      · simp [h1, h2, h3]

theorem applyDeclaration_background_of_some {d : Declaration} (st : ComputedStyle) {v : Color}
    (h : backgroundValueOfDecl d = some v) :
    (applyDeclaration st d).backgroundColor = some v := by
  rcases d with ⟨prop, w⟩
  unfold backgroundValueOfDecl at h
  unfold applyDeclaration
  by_cases h1 : prop = propBackgroundColor
  · simp only [if_pos h1] at h
    simp only [if_pos h1]
    cases w <;> simp_all [ComputedStyle.setBackgroundColor]
  · simp only [if_neg h1] at h
    exact absurd h (by simp)

theorem applyDeclaration_display_of_none {d : Declaration} (st : ComputedStyle)
    (h : displayValueOfDecl d = none) : (applyDeclaration st d).display = st.display := by
  rcases d with ⟨prop, v⟩
  unfold displayValueOfDecl at h
  unfold applyDeclaration
  by_cases h1 : prop = propBackgroundColor
  · simp only [if_pos h1]
    cases v <;> simp [ComputedStyle.setBackgroundColor]
  · by_cases h2 : prop = propColor
    · simp only [if_neg h1, if_pos h2]
      cases v <;> simp [ComputedStyle.setColor]
    · by_cases h3 : prop = propDisplay
      · simp only [if_pos h3] at h
        simp only [if_neg h1, if_neg h2, if_pos h3]
        cases v <;> simp_all
      · simp [h1, h2, h3]

theorem applyDeclaration_display_of_some {d : Declaration} (st : ComputedStyle)
    {v : DisplayType} (h : displayValueOfDecl d = some v) :
    (applyDeclaration st d).display = some v := by
  rcases d with ⟨prop, w⟩
  unfold displayValueOfDecl at h
  unfold applyDeclaration
  by_cases h3 : prop = propDisplay
  · have h1 : prop ≠ propBackgroundColor := by
      rw [h3]; decide
    have h2 : prop ≠ propColor := by
      rw [h3]; decide
    simp only [if_pos h3] at h
    simp only [if_neg h1, if_neg h2, if_pos h3]
    cases w <;> simp_all [ComputedStyle.setDisplay]
  · simp only [if_neg h3] at h
    exact absurd h (by simp)

theorem foldl_color_of_none (ds : List Declaration) (st : ComputedStyle)
    (h : ∀ d ∈ ds, colorValueOfDecl d = none) :
    (List.foldl applyDeclaration st ds).color = st.color := by
  induction ds generalizing st with
  | nil => rfl
  | cons d ds ih =>
    simp only [List.foldl_cons]
    rw [ih _ fun d' hd' => h d' (List.mem_cons_of_mem _ hd'),
      applyDeclaration_color_of_none st (h d (List.mem_cons_self _ _))]

theorem foldl_background_of_none (ds : List Declaration) (st : ComputedStyle)
    (h : ∀ d ∈ ds, backgroundValueOfDecl d = none) :
    (List.foldl applyDeclaration st ds).backgroundColor = st.backgroundColor := by
  induction ds generalizing st with
  | nil => rfl
  | cons d ds ih =>
    simp only [List.foldl_cons]
    rw [ih _ fun d' hd' => h d' (List.mem_cons_of_mem _ hd'),
      applyDeclaration_background_of_none st (h d (List.mem_cons_self _ _))]

theorem foldl_display_of_none (ds : List Declaration) (st : ComputedStyle)
    (h : ∀ d ∈ ds, displayValueOfDecl d = none) :
    (List.foldl applyDeclaration st ds).display = st.display := by
  induction ds generalizing st with
  | nil => rfl
  | cons d ds ih =>
    simp only [List.foldl_cons]
    rw [ih _ fun d' hd' => h d' (List.mem_cons_of_mem _ hd'),
      applyDeclaration_display_of_none st (h d (List.mem_cons_self _ _))]

/-- C7: the cascade applies matching rules' declarations in sheet order and
the last effective declaration per recognized property wins, with no
specificity weighting between selector kinds: whenever the concatenated
declarations of the matching rules split as `ds1 ++ d :: ds2` with `d`
carrying a value for the property and nothing after it doing so, the
computed style holds exactly `d`'s value — for `color`, `background-color`
and `display` alike, whatever kind of selector each rule used. -/
theorem c7_last_match_wins :
    (∀ (nk : NodeKind) (sheet : StyleSheet) (st : ComputedStyle)
        (ds1 : List Declaration) (d : Declaration) (ds2 : List Declaration) (v : Color),
        matchedDeclarations nk sheet = ds1 ++ d :: ds2 →
        colorValueOfDecl d = some v →
        (∀ d' ∈ ds2, colorValueOfDecl d' = none) →
        (applyMatchingRules nk sheet st).color = some v)
    ∧ (∀ (nk : NodeKind) (sheet : StyleSheet) (st : ComputedStyle)
        (ds1 : List Declaration) (d : Declaration) (ds2 : List Declaration) (v : Color),
        matchedDeclarations nk sheet = ds1 ++ d :: ds2 →
        backgroundValueOfDecl d = some v →
        (∀ d' ∈ ds2, backgroundValueOfDecl d' = none) →
        (applyMatchingRules nk sheet st).backgroundColor = some v)
    ∧ (∀ (nk : NodeKind) (sheet : StyleSheet) (st : ComputedStyle)
        (ds1 : List Declaration) (d : Declaration) (ds2 : List Declaration)
        (v : DisplayType),
        matchedDeclarations nk sheet = ds1 ++ d :: ds2 →
        displayValueOfDecl d = some v →
        (∀ d' ∈ ds2, displayValueOfDecl d' = none) →
        (applyMatchingRules nk sheet st).display = some v) := by
  refine ⟨?_, ?_, ?_⟩ <;> intro nk sheet st ds1 d ds2 v hsplit hv hnone <;>
    rw [applyMatchingRules_eq, hsplit] <;> unfold cascadingStyle <;>
    rw [List.foldl_append] <;> simp only [List.foldl_cons]
  · rw [foldl_color_of_none ds2 _ hnone, applyDeclaration_color_of_some _ hv]
  · rw [foldl_background_of_none ds2 _ hnone, applyDeclaration_background_of_some _ hv]
  · rw [foldl_display_of_none ds2 _ hnone, applyDeclaration_display_of_some _ hv]

def nodePWithIdX : NodeKind := .element ⟨.p, [⟨['i', 'd'], ['x']⟩]⟩

def sheetIdThenType : StyleSheet :=
  ⟨[⟨.idSelector ['x'], [declColorRed]⟩, ⟨.typeSelector ['p'], [declColorBlue]⟩]⟩

/-- C7 witness: a `p` element with `id="x"` against the sheet
`#x { color: red; } p { color: blue; }` — both rules match, and the later
*type* rule beats the earlier *id* rule: the computed color is blue. -/
theorem c7_last_match_wins_witness :
    (matchedDeclarations nodePWithIdX sheetIdThenType = [declColorRed] ++ declColorBlue :: [])
    ∧ colorValueOfDecl declColorBlue = some (Color.named ['b', 'l', 'u', 'e'])
    ∧ (applyMatchingRules nodePWithIdX sheetIdThenType ComputedStyle.default).color
        = some (Color.named ['b', 'l', 'u', 'e']) :=
  ⟨by decide, by decide,
    c7_last_match_wins.1 nodePWithIdX sheetIdThenType ComputedStyle.default
      [declColorRed] declColorBlue [] (Color.named ['b', 'l', 'u', 'e'])
      (by decide) (by decide) (by simp)⟩

end Saba
